import Mathlib

/-!
Verification of the aws-entityresolution pipeline's core logic against a
shallow embedding of the Python source.

Embedded components:
* `S3Service.find_latest_path` in `services/s3.py` and its older duplicate in
  `services.py` (names `findLatestPath` and `findLatestPathV1` here);
* the polling loop `wait_for_matching_job` in `processor/processor.py`;
* `ProcessingResult.__init__` and `process_data` in `processor/processor.py`;
* `load_matched_records` and `load_records` in `loader/loader.py`;
* the MERGE-based `load_data` in `loader/snowflake_loader.py`.

Python strings are Lean `String`s; Python dicts whose keys may be absent are
structures with `Option`-valued fields; the external JSON parser and the
database/storage clients are parameters, as they are injected dependencies in
the source.  Python string comparison (used by `sorted`) is the
lexicographic order on code points, implemented structurally below so that
all definitions evaluate by kernel reduction.
-/

namespace AwsER

/-- `pat` is a prefix of `hay` (on code points). -/
def listIsPfx : List Char → List Char → Bool
  | [], _ => true
  | _ :: _, [] => false
  | a :: as, b :: bs => a = b && listIsPfx as bs

/-- `pat` occurs as a contiguous run somewhere in `hay`. -/
def listHasInfix (pat : List Char) : List Char → Bool
  | [] => listIsPfx pat []
  | c :: rest => listIsPfx pat (c :: rest) || listHasInfix pat rest

/-- Python's `pat in hay` substring test on strings. -/
def strContains (hay pat : String) : Bool :=
  listHasInfix pat.data hay.data

/-- Python's `key.startswith(p)` / the S3 "key lies under prefix p" relation. -/
def strIsPfx (p k : String) : Bool :=
  listIsPfx p.data k.data

/-- Lexicographic strict order on code-point lists (Python's `<` on `str`). -/
def lexLt : List Char → List Char → Bool
  | _, [] => false
  | [], _ :: _ => true
  | a :: as, b :: bs => if a = b then lexLt as bs else decide (a < b)

/-- Python's `s < t` on strings. -/
def strLt (s t : String) : Bool :=
  lexLt s.data t.data

/-- Python's `s <= t` on strings (total order: `s ≤ t ↔ ¬ t < s`). -/
def strLe (s t : String) : Bool :=
  !(strLt t s)

/-- One insertion step of a descending (largest-first) insertion sort. -/
def insertDesc (x : String) : List String → List String
  | [] => [x]
  | y :: ys => if strLe y x then x :: y :: ys else y :: insertDesc x ys

/-- `sorted(xs, reverse=True)` on strings: descending lexicographic sort. -/
def sortDesc : List String → List String
  | [] => []
  | x :: xs => insertDesc x (sortDesc xs)

/-- Result of `S3Service.list_objects`: the `prefixes` and `files` lists of
the S3 `list_objects_v2` response. -/
structure ListResult where
  prefixes : List String
  files : List String
  deriving DecidableEq, Repr

/-- The immediate child prefix (up to and including the first `/` after
`pfx`) that S3's delimiter grouping derives from a key under `pfx`, or
`none` if the key has no `/` after `pfx` (it is then listed as a file). -/
def upToSlash : List Char → Option (List Char)
  | [] => none
  | c :: cs => if c = '/' then some [c] else (upToSlash cs).map (c :: ·)

def childPfx (pfx key : String) : Option String :=
  (upToSlash (key.data.drop pfx.data.length)).map
    (fun cs => pfx ++ String.mk cs)

/-- `S3Service.list_objects(prefix, delimiter)` over a bucket modelled as the
list of its object keys.  With delimiter `"/"` S3 groups keys by their first
`/` past the prefix into `CommonPrefixes` (deduplicated) and lists the rest
in `Contents`; with delimiter `""` everything is in `Contents`.  These are
the only two delimiters the source uses. -/
def listObjects (bucket : List String) (pfx delim : String) : ListResult :=
  let keys := bucket.filter (fun k => strIsPfx pfx k)
  if delim = "/" then
    { prefixes := (keys.filterMap (childPfx pfx)).dedup
      files := keys.filter (fun k => childPfx pfx k = none) }
  else
    { prefixes := [], files := keys }

/-- The prefix-scanning loop of `S3Service.find_latest_path` in
`services/s3.py`: for each prefix in order, list its files, filter by the
pattern, and return the first match; fall through to the next prefix
otherwise. -/
def findInPfxs (bucket : List String) (pat : String) : List String → Option String
  | [] => none
  | p :: rest =>
    let fs := (listObjects bucket p "").files
    match fs.filter (fun f => strContains f pat) with
    | m :: _ => some m
    | [] => findInPfxs bucket pat rest

/-- `S3Service.find_latest_path(base_prefix, file_pattern)` in
`services/s3.py` (lines 138-187). -/
def findLatestPath (bucket : List String) (basePfx pat : String) : Option String :=
  let result := listObjects bucket basePfx "/"
  if result.prefixes = [] then
    ((result.files).filter (fun f => strContains f pat)).head?
  else
    findInPfxs bucket pat (sortDesc result.prefixes)

/-- `S3Service.find_latest_path(base_prefix, file_pattern)` in the duplicate
`services.py` (lines 83-134).  `base_prefix or self.settings.s3.prefix`
substitutes the configured prefix when `base_prefix` is falsy (empty); when
no child prefixes exist it returns `None` without a flat-file fallback, and
only the single newest prefix is inspected.  The `[]` arm of the inner match
is unreachable (the branch is guarded by `prefixes ≠ []`). -/
def findLatestPathV1 (bucket : List String) (settingsPfx basePfx pat : String) :
    Option String :=
  let pfx := if basePfx = "" then settingsPfx else basePfx
  let result := listObjects bucket pfx "/"
  if result.prefixes = [] then
    none
  else
    match sortDesc result.prefixes with
    | [] => none
    | latest :: _ =>
      let fs := (listObjects bucket latest "").files
      (fs.filter (fun f => strContains f pat)).head?

/-- A prefix has at least one file matching the pattern. -/
def hasMatchB (bucket : List String) (p pat : String) : Bool :=
  !((listObjects bucket p "").files.filter (fun f => strContains f pat)).isEmpty

/-! ### Order lemmas for the structural string comparison -/

theorem lexLt_irrefl : ∀ as, lexLt as as = false
  | [] => rfl
  | a :: as => by simp [lexLt, lexLt_irrefl as]

theorem lexLt_trans : ∀ as bs cs, lexLt as bs = true → lexLt bs cs = true →
    lexLt as cs = true
  | _, [], _, h1, _ => by simp [lexLt] at h1
  | _, _ :: _, [], _, h2 => by simp [lexLt] at h2
  | [], _ :: _, _ :: _, _, _ => by simp [lexLt]
  | a :: as, b :: bs, c :: cs, h1, h2 => by
    simp only [lexLt] at h1 h2 ⊢
    by_cases hab : a = b <;> by_cases hbc : b = c <;>
      simp only [hab, hbc, if_true, if_false, decide_eq_true_eq] at h1 h2 ⊢
    · subst hab hbc; simp_all [lexLt_trans as bs cs h1 h2]
    · subst hab; simp_all
    · subst hbc; simp_all
    · have hac : a < c := lt_trans h1 h2
      simp [ne_of_lt hac, hac]

theorem lexLt_trichotomy : ∀ as bs, as = bs ∨ lexLt as bs = true ∨ lexLt bs as = true
  | [], [] => Or.inl rfl
  | [], _ :: _ => Or.inr (Or.inl (by simp [lexLt]))
  | _ :: _, [] => Or.inr (Or.inr (by simp [lexLt]))
  | a :: as, b :: bs => by
    by_cases hab : a = b
    · subst hab
      rcases lexLt_trichotomy as bs with h | h | h
      · exact Or.inl (by rw [h])
      · exact Or.inr (Or.inl (by simp [lexLt, h]))
      · exact Or.inr (Or.inr (by simp [lexLt, h]))
    · rcases lt_trichotomy a b with h | h | h
      · exact Or.inr (Or.inl (by simp [lexLt, hab, h]))
      · exact absurd h hab
      · exact Or.inr (Or.inr (by simp [lexLt, Ne.symm hab, h]))

theorem strLe_refl (s : String) : strLe s s = true := by
  simp [strLe, strLt, lexLt_irrefl]

theorem strLe_total (s t : String) : strLe s t = true ∨ strLe t s = true := by
  simp only [strLe, strLt, Bool.not_eq_true']
  rcases lexLt_trichotomy s.data t.data with h | h | h
  · left
    rw [h]
    exact (lexLt_irrefl _)
  · left
    cases hts : lexLt t.data s.data
    · rfl
    · exact absurd (lexLt_trans _ _ _ h hts) (by simp [lexLt_irrefl])
  · right
    cases hts : lexLt s.data t.data
    · rfl
    · exact absurd (lexLt_trans _ _ _ h hts) (by simp [lexLt_irrefl])

theorem strLe_trans {a b c : String} (h1 : strLe a b = true) (h2 : strLe b c = true) :
    strLe a c = true := by
  simp only [strLe, strLt, Bool.not_eq_true'] at h1 h2 ⊢
  cases hca : lexLt c.data a.data
  · rfl
  · exfalso
    rcases lexLt_trichotomy a.data b.data with h | h | h
    · rw [h] at hca
      rw [hca] at h2
      exact Bool.noConfusion h2
    · have htr := lexLt_trans _ _ _ hca h
      rw [htr] at h2
      exact Bool.noConfusion h2
    · rw [h] at h1
      exact Bool.noConfusion h1

/-! ### Prefix and substring lemmas -/

theorem listIsPfx_refl : ∀ as, listIsPfx as as = true
  | [] => rfl
  | a :: as => by simp [listIsPfx, listIsPfx_refl as]

theorem listIsPfx_append_self : ∀ as bs, listIsPfx as (as ++ bs) = true
  | [], _ => rfl
  | a :: as, bs => by simp [listIsPfx, listIsPfx_append_self as bs]

theorem listIsPfx_of_append_left : ∀ as bs cs, listIsPfx (as ++ bs) cs = true →
    listIsPfx as cs = true
  | [], _, _, _ => rfl
  | _ :: _, _, [], h => by simp [listIsPfx] at h
  | a :: as, bs, c :: cs, h => by
    simp only [List.cons_append, listIsPfx, Bool.and_eq_true, decide_eq_true_eq] at h ⊢
    exact ⟨h.1, listIsPfx_of_append_left as bs cs h.2⟩

theorem listIsPfx_trans : ∀ as bs cs, listIsPfx as bs = true → listIsPfx bs cs = true →
    listIsPfx as cs = true
  | [], _, _, _, _ => rfl
  | _ :: _, [], _, h1, _ => by simp [listIsPfx] at h1
  | _ :: _, _ :: _, [], _, h2 => by simp [listIsPfx] at h2
  | a :: as, b :: bs, c :: cs, h1, h2 => by
    simp only [listIsPfx, Bool.and_eq_true, decide_eq_true_eq] at h1 h2 ⊢
    exact ⟨h1.1.trans h2.1, listIsPfx_trans as bs cs h1.2 h2.2⟩

theorem strIsPfx_trans {p q k : String} (h1 : strIsPfx p q = true)
    (h2 : strIsPfx q k = true) : strIsPfx p k = true :=
  listIsPfx_trans _ _ _ h1 h2

theorem listHasInfix_append_self : ∀ as bs, listHasInfix bs (as ++ bs) = true
  | [], [] => rfl
  | [], b :: bs => by simp [listHasInfix, listIsPfx_refl]
  | a :: as, bs => by simp [listHasInfix, listHasInfix_append_self as bs]

/-- Python's `e in ("..." + e)`: a string contains its own appended suffix. -/
theorem strContains_append (hd tl : String) : strContains (hd ++ tl) tl = true := by
  simp only [strContains, String.data_append hd tl]
  exact listHasInfix_append_self _ _

/-! ### Sorting lemmas -/

theorem mem_insertDesc {a x : String} : ∀ {l : List String},
    a ∈ insertDesc x l ↔ a = x ∨ a ∈ l
  | [] => by simp [insertDesc]
  | y :: ys => by
    simp only [insertDesc]
    split
    · simp
    · simp only [List.mem_cons, mem_insertDesc (l := ys)]
      tauto

theorem mem_sortDesc {a : String} : ∀ {l : List String}, a ∈ sortDesc l ↔ a ∈ l
  | [] => Iff.rfl
  | x :: xs => by
    simp only [sortDesc, mem_insertDesc, List.mem_cons, mem_sortDesc (l := xs)]

theorem pairwise_insertDesc (x : String) : ∀ {l : List String},
    l.Pairwise (fun p q => strLe q p = true) →
    (insertDesc x l).Pairwise (fun p q => strLe q p = true)
  | [], _ => by simp [insertDesc]
  | y :: ys, h => by
    rw [List.pairwise_cons] at h
    simp only [insertDesc]
    split
    · rename_i hyx
      refine List.pairwise_cons.mpr ⟨?_, List.pairwise_cons.mpr h⟩
      intro z hz
      rcases List.mem_cons.mp hz with hzy | hzys
      · exact hzy ▸ hyx
      · exact strLe_trans (h.1 z hzys) hyx
    · rename_i hyx
      refine List.pairwise_cons.mpr ⟨?_, pairwise_insertDesc x h.2⟩
      intro z hz
      rcases mem_insertDesc.mp hz with hzx | hzys
      · subst hzx
        rcases strLe_total y z with hy | hy
        · exact absurd hy (by simpa using hyx)
        · exact hy
      · exact h.1 z hzys

theorem pairwise_sortDesc : ∀ (l : List String),
    (sortDesc l).Pairwise (fun p q => strLe q p = true)
  | [] => List.Pairwise.nil
  | x :: xs => pairwise_insertDesc x (pairwise_sortDesc xs)

/-! ### Behaviour of the prefix-scanning loop -/

/-- On a descending list of prefixes, the scan's result comes from the
greatest prefix that has a matching file: no earlier (newer) prefix matched,
and the returned key lies under that prefix, contains the pattern, and is a
bucket key. -/
theorem findInPfxs_spec (bucket : List String) (pat : String) :
    ∀ l : List String, l.Pairwise (fun p q => strLe q p = true) →
    (∃ p ∈ l, hasMatchB bucket p pat = true) →
    ∃ pB k, findInPfxs bucket pat l = some k ∧ pB ∈ l ∧
      hasMatchB bucket pB pat = true ∧
      (∀ q ∈ l, hasMatchB bucket q pat = true → strLe q pB = true) ∧
      strIsPfx pB k = true ∧ strContains k pat = true ∧ k ∈ bucket := by
  intro l
  induction l with
  | nil => rintro _ ⟨p, hp, _⟩; exact absurd hp (List.not_mem_nil p)
  | cons p rest ih =>
    intro hpair hex
    rw [List.pairwise_cons] at hpair
    cases hfil : ((listObjects bucket p "").files.filter
        (fun f => strContains f pat)) with
    | cons m ms =>
      refine ⟨p, m, ?_, List.mem_cons_self p rest, ?_, ?_, ?_, ?_, ?_⟩
      · simp [findInPfxs, hfil]
      · simp [hasMatchB, hfil]
      · intro q hq _
        rcases List.mem_cons.mp hq with hqp | hqr
        · exact hqp ▸ strLe_refl p
        · exact hpair.1 q hqr
      · have hm : m ∈ (listObjects bucket p "").files.filter
            (fun f => strContains f pat) := by rw [hfil]; exact List.mem_cons_self m ms
        have hm' := List.mem_filter.mp hm
        have hm'' := List.mem_filter.mp hm'.1
        exact hm''.2
      · have hm : m ∈ (listObjects bucket p "").files.filter
            (fun f => strContains f pat) := by rw [hfil]; exact List.mem_cons_self m ms
        exact (List.mem_filter.mp hm).2
      · have hm : m ∈ (listObjects bucket p "").files.filter
            (fun f => strContains f pat) := by rw [hfil]; exact List.mem_cons_self m ms
        have hm' := List.mem_filter.mp hm
        exact (List.mem_filter.mp hm'.1).1
    | nil =>
      have hpno : hasMatchB bucket p pat = false := by simp [hasMatchB, hfil]
      have hex' : ∃ q ∈ rest, hasMatchB bucket q pat = true := by
        rcases hex with ⟨q, hq, hqm⟩
        rcases List.mem_cons.mp hq with hqp | hqr
        · rw [hqp] at hqm; rw [hqm] at hpno; exact absurd hpno (by simp)
        · exact ⟨q, hqr, hqm⟩
      rcases ih hpair.2 hex' with ⟨pB, k, hfind, hmem, hmatch, hmax, hpfx, hcont, hbuck⟩
      refine ⟨pB, k, ?_, List.mem_cons_of_mem p hmem, hmatch, ?_, hpfx, hcont, hbuck⟩
      · simp [findInPfxs, hfil, hfind]
      · intro q hq hqm
        rcases List.mem_cons.mp hq with hqp | hqr
        · rw [hqp] at hqm; rw [hqm] at hpno; exact absurd hpno (by simp)
        · exact hmax q hqr hqm

theorem findInPfxs_none (bucket : List String) (pat : String) :
    ∀ l : List String,
    (∀ p ∈ l, ((listObjects bucket p "").files.filter
      (fun f => strContains f pat)) = []) →
    findInPfxs bucket pat l = none := by
  intro l
  induction l with
  | nil => intro; rfl
  | cons p rest ih =>
    intro h
    have hp := h p (List.mem_cons_self p rest)
    simp only [findInPfxs, hp]
    exact ih (fun q hq => h q (List.mem_cons_of_mem p hq))

/-- Every child prefix produced by the delimiter grouping extends the base
prefix. -/
theorem childPfx_isPfx {basePfx key p : String} (h : childPfx basePfx key = some p) :
    strIsPfx basePfx p = true := by
  simp only [childPfx, Option.map_eq_some'] at h
  rcases h with ⟨cs, _, hcs⟩
  rw [← hcs]
  simp only [strIsPfx, String.data_append]
  exact listIsPfx_append_self _ _

theorem mem_prefixes_isPfx {bucket : List String} {basePfx p : String}
    (h : p ∈ (listObjects bucket basePfx "/").prefixes) :
    strIsPfx basePfx p = true := by
  simp only [listObjects, if_pos rfl] at h
  rcases List.mem_filterMap.mp (List.mem_dedup.mp h) with ⟨key, _, hkey⟩
  exact childPfx_isPfx hkey

/-- The demonstration bucket of the end-to-end scenario. -/
def demoBucket : List String :=
  ["prefix/20240101_120000/data.json", "prefix/20240102_090000/data.json"]

/-- C3: whenever some child prefix of `base_prefix` has a file containing
`file_pattern`, `find_latest_path` (services/s3.py) returns a matching file
key under the lexicographically-greatest such prefix, falling back past
newer prefixes that have no match; and on the concrete two-timestamp layout
it returns the file under the newer `20240102_090000` prefix. -/
theorem C3_findLatestPath_latest_matching :
    (∀ (bucket : List String) (basePfx pat : String),
      (∃ p ∈ (listObjects bucket basePfx "/").prefixes,
        hasMatchB bucket p pat = true) →
      ∃ pB k, findLatestPath bucket basePfx pat = some k ∧
        pB ∈ (listObjects bucket basePfx "/").prefixes ∧
        hasMatchB bucket pB pat = true ∧
        (∀ q ∈ (listObjects bucket basePfx "/").prefixes,
          hasMatchB bucket q pat = true → strLe q pB = true) ∧
        strIsPfx pB k = true ∧ strContains k pat = true ∧ k ∈ bucket) ∧
    findLatestPath demoBucket "prefix/" ".json" =
      some "prefix/20240102_090000/data.json" := by
  constructor
  · intro bucket basePfx pat hex
    have hne : (listObjects bucket basePfx "/").prefixes ≠ [] := by
      rcases hex with ⟨p, hp, _⟩
      intro hnil
      rw [hnil] at hp
      exact absurd hp (List.not_mem_nil p)
    have hex' : ∃ p ∈ sortDesc (listObjects bucket basePfx "/").prefixes,
        hasMatchB bucket p pat = true := by
      rcases hex with ⟨p, hp, hm⟩
      exact ⟨p, mem_sortDesc.mpr hp, hm⟩
    rcases findInPfxs_spec bucket pat _ (pairwise_sortDesc _) hex' with
      ⟨pB, k, hfind, hmem, hmatch, hmax, hpfx, hcont, hbuck⟩
    refine ⟨pB, k, ?_, mem_sortDesc.mp hmem, hmatch, ?_, hpfx, hcont, hbuck⟩
    · simp only [findLatestPath, if_neg hne]
      exact hfind
    · intro q hq hqm
      exact hmax q (mem_sortDesc.mpr hq) hqm
  · decide

/-- Witness for C3 at the concrete end-to-end scenario. -/
theorem C3_witness :
    (∃ p ∈ (listObjects demoBucket "prefix/" "/").prefixes,
      hasMatchB demoBucket p ".json" = true) ∧
    ∃ pB k, findLatestPath demoBucket "prefix/" ".json" = some k ∧
      pB ∈ (listObjects demoBucket "prefix/" "/").prefixes ∧
      hasMatchB demoBucket pB ".json" = true ∧
      (∀ q ∈ (listObjects demoBucket "prefix/" "/").prefixes,
        hasMatchB demoBucket q ".json" = true → strLe q pB = true) ∧
      strIsPfx pB k = true ∧ strContains k ".json" = true ∧ k ∈ demoBucket :=
  ⟨by decide, C3_findLatestPath_latest_matching.1 demoBucket "prefix/" ".json" (by decide)⟩

/-- C4: when no key under `base_prefix` contains the pattern — in particular
when the listing has zero child prefixes and zero files — `find_latest_path`
(services/s3.py) returns `None`; the embedding is a total function, so no
exception is raised. -/
theorem C4_findLatestPath_none_when_no_match :
    ∀ (bucket : List String) (basePfx pat : String),
    (∀ k ∈ bucket, strIsPfx basePfx k = true → strContains k pat = false) →
    findLatestPath bucket basePfx pat = none := by
  intro bucket basePfx pat h
  by_cases hne : (listObjects bucket basePfx "/").prefixes = []
  · simp only [findLatestPath, if_pos hne]
    have : ((listObjects bucket basePfx "/").files.filter
        (fun f => strContains f pat)) = [] := by
      rw [List.filter_eq_nil_iff]
      intro f hf
      simp only [listObjects, if_pos rfl] at hf
      have hf1 := List.mem_filter.mp hf
      have hf2 := List.mem_filter.mp hf1.1
      simp [h f hf2.1 hf2.2]
    rw [this]
    rfl
  · simp only [findLatestPath, if_neg hne]
    apply findInPfxs_none
    intro p hp
    rw [List.filter_eq_nil_iff]
    intro f hf
    have hbase := mem_prefixes_isPfx (mem_sortDesc.mp hp)
    simp only [listObjects, if_neg (by decide : ¬("" : String) = "/")] at hf
    have hf1 := List.mem_filter.mp hf
    have : strIsPfx basePfx f = true := strIsPfx_trans hbase hf1.2
    simp [h f hf1.1 this]

/-- Witness for C4: the empty listing state. -/
theorem C4_witness :
    (∀ k ∈ ([] : List String), strIsPfx "prefix/" k = true →
      strContains k ".json" = false) ∧
    findLatestPath [] "prefix/" ".json" = none :=
  ⟨by simp, C4_findLatestPath_none_when_no_match [] "prefix/" ".json" (by simp)⟩

/-- C9 counterexample: a listing state on which the two duplicate
implementations disagree.  The newest child prefix `p/b/` has no `.json`
file; `services/s3.py` falls back to `p/a/` and finds `p/a/x.json`, while
`services.py` inspects only the newest prefix and returns `None`. -/
theorem C9_counterexample :
    findLatestPath ["p/a/x.json", "p/b/y.txt"] "p/" ".json" = some "p/a/x.json" ∧
    findLatestPathV1 ["p/a/x.json", "p/b/y.txt"] "p/" "p/" ".json" = none ∧
    findLatestPath ["p/a/x.json", "p/b/y.txt"] "p/" ".json" ≠
      findLatestPathV1 ["p/a/x.json", "p/b/y.txt"] "p/" "p/" ".json" := by
  refine ⟨by decide, by decide, by decide⟩

/-- C9 (amended): the two duplicate `find_latest_path` implementations agree
whenever `base_prefix` is non-empty, the listing has at least one child
prefix, and the lexicographically-greatest child prefix contains a matching
file; under those conditions both return the first matching file under that
prefix.  (They disagree when the newest prefix has no match — only
services/s3.py falls back to older prefixes — and when no child prefixes
exist — only services/s3.py checks flat files.) -/
theorem C9_findLatestPath_variants_agree :
    ∀ (bucket : List String) (settingsPfx basePfx pat lp : String)
      (rest : List String),
    basePfx ≠ "" →
    sortDesc (listObjects bucket basePfx "/").prefixes = lp :: rest →
    hasMatchB bucket lp pat = true →
    findLatestPathV1 bucket settingsPfx basePfx pat =
      findLatestPath bucket basePfx pat ∧
    ∃ k, findLatestPath bucket basePfx pat = some k := by
  intro bucket settingsPfx basePfx pat lp rest hbp hsort hmatch
  have hne : (listObjects bucket basePfx "/").prefixes ≠ [] := by
    intro hnil
    rw [hnil] at hsort
    exact List.noConfusion hsort
  cases hfil : ((listObjects bucket lp "").files.filter
      (fun f => strContains f pat)) with
  | nil => rw [hasMatchB, hfil] at hmatch; exact absurd hmatch (by simp)
  | cons m ms =>
    constructor
    · simp only [findLatestPathV1, findLatestPath, if_neg hbp, if_neg hne, hsort,
        findInPfxs, hfil, List.head?_cons]
    · simp only [findLatestPath, if_neg hne, hsort, findInPfxs, hfil]
      exact ⟨m, rfl⟩

/-- Witness for C9 (amended): both implementations find `p/b/y.json`. -/
theorem C9_witness :
    (("p/" : String) ≠ "" ∧
      sortDesc (listObjects ["p/a/x.json", "p/b/y.json"] "p/" "/").prefixes =
        "p/b/" :: ["p/a/"] ∧
      hasMatchB ["p/a/x.json", "p/b/y.json"] "p/b/" ".json" = true) ∧
    findLatestPathV1 ["p/a/x.json", "p/b/y.json"] "sp/" "p/" ".json" =
      findLatestPath ["p/a/x.json", "p/b/y.json"] "p/" ".json" ∧
    ∃ k, findLatestPath ["p/a/x.json", "p/b/y.json"] "p/" ".json" = some k :=
  ⟨⟨by decide, by decide, by decide⟩,
    C9_findLatestPath_variants_agree ["p/a/x.json", "p/b/y.json"] "sp/" "p/" ".json"
      "p/b/" ["p/a/"] (by decide) (by decide) (by decide)⟩

/-! ### The match-job polling loop (`wait_for_matching_job`,
processor/processor.py lines 87-152) -/

/-- Python exceptions that the processor code can raise. -/
inductive PyErr where
  | runtimeError (msg : String)
  | indexError (msg : String)
  | valueError (msg : String)
  | keyError (msg : String)
  deriving DecidableEq, Repr

/-- The nested `s3OutputConfig` dict of a job-info record; `key` is `none`
when the `"key"` entry is absent (`.get("key", "")` then yields `""`). -/
structure S3OutCfg where
  key : Option String
  deriving DecidableEq, Repr

/-- The `outputSourceConfig` dict of a job-info record. -/
structure OutSrcCfg where
  s3OutputConfig : Option S3OutCfg
  deriving DecidableEq, Repr

/-- Entity Resolution statistics: a dict of record counts. -/
def Stats := List (String × Nat)
deriving DecidableEq, Repr

/-- A job-info dict as returned by `er_service.get_job_status`.  An
`Option`-valued field is `none` when the corresponding key is absent from
the dict. -/
structure JobInfo where
  status : String
  output_location : Option String
  outputSourceConfig : Option OutSrcCfg
  statistics : Option Stats
  errors : Option (List String)
  deriving DecidableEq, Repr

/-- Python truthiness of `job_info.get("output_location")`: false for an
absent key (`None`) and for the empty string. -/
def truthyOpt : Option String → Bool
  | none => false
  | some s => !(s == "")

/-- `output_config.get("s3OutputConfig", {}).get("key", "")` evaluated on
the `outputSourceConfig` dict. -/
def extractCfgKey : OutSrcCfg → String
  | cfg =>
    match cfg.s3OutputConfig with
    | some sc => sc.key.getD ""
    | none => ""

/-- One iteration of the `while True` body of `wait_for_matching_job` on one
polled job-info record: `some outcome` when the iteration returns or raises,
`none` when the job is non-terminal and the loop sleeps and re-polls. -/
def waitStep (ji : JobInfo) : Option (Except PyErr JobInfo) :=
  if ji.status = "SUCCEEDED" then
    let loc : Option String :=
      if !truthyOpt ji.output_location then
        match ji.outputSourceConfig with
        | some cfg => some (extractCfgKey cfg)
        | none => ji.output_location
      else ji.output_location
    some (Except.ok
      (if ji.output_location = none ∧ truthyOpt loc then
        { ji with output_location := loc }
      else ji))
  else if ji.status = "FAILED" then
    some (Except.error
      (match ji.errors with
      | none => PyErr.runtimeError ("Matching job failed: " ++ "Unknown error")
      | some [] => PyErr.indexError "list index out of range"
      | some (e :: _) => PyErr.runtimeError ("Matching job failed: " ++ e)))
  else if ji.status = "CANCELLED" then
    some (Except.error (PyErr.runtimeError "Matching job was cancelled"))
  else
    none

/-- Run of `wait_for_matching_job` against a finite list of successive
`get_job_status` responses: the outcome, the number of polls made, and the
list of sleep durations (one `check_interval` sleep after each non-terminal
poll).  `none` means the observed responses were exhausted with the loop
still polling. -/
def waitTrace (checkInterval : Nat) : List JobInfo → Option (Except PyErr JobInfo × Nat × List Nat)
  | [] => none
  | ji :: rest =>
    match waitStep ji with
    | some out => some (out, 1, [])
    | none =>
      match waitTrace checkInterval rest with
      | some (out, polls, sleeps) => some (out, polls + 1, checkInterval :: sleeps)
      | none => none

/-- A job status from which `wait_for_matching_job` stops polling. -/
def isTerminal (s : String) : Bool :=
  s = "SUCCEEDED" || s = "FAILED" || s = "CANCELLED"

theorem waitStep_eq_none_iff (ji : JobInfo) :
    waitStep ji = none ↔ isTerminal ji.status = false := by
  simp only [waitStep, isTerminal]
  by_cases h1 : ji.status = "SUCCEEDED" <;>
    by_cases h2 : ji.status = "FAILED" <;>
      by_cases h3 : ji.status = "CANCELLED" <;>
        simp [h1, h2, h3]

/-- Run of `wait_for_matching_job` against an infinite stream of responses,
with fuel bounding the number of polls: `none` means the loop is still
polling after `fuel` polls. -/
def waitFuel (responses : Nat → JobInfo) : Nat → Nat → Option (Except PyErr JobInfo)
  | _, 0 => none
  | i, fuel + 1 =>
    match waitStep (responses i) with
    | some out => some out
    | none => waitFuel responses (i + 1) fuel

/-- C1: on the response sequence `[RUNNING, RUNNING, SUCCEEDED]` (with the
final response carrying a top-level `output_location`), the loop polls
exactly 3 times, sleeps `check_interval` once after each of the two
non-terminal polls, and returns the final job-info record itself — hence a
record whose `output_location` and `statistics` are exactly those reported
by the service. -/
theorem C1_wait_running_running_succeeded :
    ∀ (checkInterval : Nat) (r1 r2 r3 : JobInfo) (rest : List JobInfo)
      (loc : String),
    r1.status = "RUNNING" → r2.status = "RUNNING" → r3.status = "SUCCEEDED" →
    r3.output_location = some loc →
    waitTrace checkInterval (r1 :: r2 :: r3 :: rest) =
      some (Except.ok r3, 3, [checkInterval, checkInterval]) := by
  intro checkInterval r1 r2 r3 rest loc h1 h2 h3 hloc
  have hs1 : waitStep r1 = none := by
    rw [waitStep_eq_none_iff, h1]; rfl
  have hs2 : waitStep r2 = none := by
    rw [waitStep_eq_none_iff, h2]; rfl
  have hs3 : waitStep r3 = some (Except.ok r3) := by
    simp [waitStep, h3, hloc]
  simp [waitTrace, hs1, hs2, hs3]

/-- Witness for C1 at a concrete response sequence. -/
theorem C1_witness :
    (("RUNNING" : String) = "RUNNING" ∧ ("SUCCEEDED" : String) = "SUCCEEDED") ∧
    waitTrace 30
      [⟨"RUNNING", none, none, none, none⟩,
       ⟨"RUNNING", none, none, none, none⟩,
       ⟨"SUCCEEDED", some "out/loc", none, some [("inputRecordCount", 5)], none⟩] =
      some (Except.ok
        ⟨"SUCCEEDED", some "out/loc", none, some [("inputRecordCount", 5)], none⟩,
        3, [30, 30]) :=
  ⟨⟨rfl, rfl⟩,
    C1_wait_running_running_succeeded 30
      ⟨"RUNNING", none, none, none, none⟩
      ⟨"RUNNING", none, none, none, none⟩
      ⟨"SUCCEEDED", some "out/loc", none, some [("inputRecordCount", 5)], none⟩
      [] "out/loc" rfl rfl rfl rfl⟩

/-- C2 counterexample: a FAILED job whose service response carries an empty
`errors` list.  `job_info.get("errors", ["Unknown error"])[0]` indexes the
present-but-empty list, so the loop raises `IndexError("list index out of
range")` rather than the generic `RuntimeError("Matching job failed:
Unknown error")` the claim describes. -/
theorem C2_counterexample :
    waitTrace 1 [⟨"FAILED", none, none, none, some []⟩] =
      some (Except.error (PyErr.indexError "list index out of range"), 1, []) ∧
    PyErr.indexError "list index out of range" ≠
      PyErr.runtimeError "Matching job failed: Unknown error" := by
  exact ⟨rfl, by decide⟩

/-- C2 (amended): whenever a polled status is FAILED or CANCELLED (after any
run of non-terminal polls), `wait_for_matching_job` raises and does not
return.  On FAILED with a non-empty `errors` list the raised RuntimeError's
message contains the first reported error string; on FAILED with the
`errors` key absent the message is the generic "Matching job failed:
Unknown error"; on FAILED with a present but empty `errors` list the raised
error is instead an `IndexError` from indexing the empty list. -/
theorem C2_wait_failed_raises :
    ∀ (checkInterval : Nat) (pre : List JobInfo) (ji : JobInfo)
      (rest : List JobInfo),
    (∀ j ∈ pre, isTerminal j.status = false) →
    (ji.status = "FAILED" ∨ ji.status = "CANCELLED") →
    ∃ e, waitTrace checkInterval (pre ++ ji :: rest) =
        some (Except.error e, pre.length + 1,
          List.replicate pre.length checkInterval) ∧
      (ji.status = "FAILED" → ∀ msg tl, ji.errors = some (msg :: tl) →
        e = PyErr.runtimeError ("Matching job failed: " ++ msg) ∧
        strContains ("Matching job failed: " ++ msg) msg = true) ∧
      (ji.status = "FAILED" → ji.errors = none →
        e = PyErr.runtimeError "Matching job failed: Unknown error") ∧
      (ji.status = "FAILED" → ji.errors = some [] →
        e = PyErr.indexError "list index out of range") ∧
      (ji.status = "CANCELLED" →
        e = PyErr.runtimeError "Matching job was cancelled") := by
  intro checkInterval pre ji rest hpre hterm
  induction pre with
  | nil =>
    rcases hterm with hf | hc
    · refine ⟨(match ji.errors with
        | none => PyErr.runtimeError ("Matching job failed: " ++ "Unknown error")
        | some [] => PyErr.indexError "list index out of range"
        | some (e :: _) => PyErr.runtimeError ("Matching job failed: " ++ e)),
        ?_, ?_, ?_, ?_, ?_⟩
      · have hstep : waitStep ji = some (Except.error
            (match ji.errors with
            | none => PyErr.runtimeError ("Matching job failed: " ++ "Unknown error")
            | some [] => PyErr.indexError "list index out of range"
            | some (e :: _) => PyErr.runtimeError ("Matching job failed: " ++ e))) := by
          simp only [waitStep]
          rw [if_neg (by rw [hf]; decide), if_pos hf]
        simp [waitTrace, hstep]
      · intro _ msg tl herr
        rw [herr]
        exact ⟨rfl, strContains_append "Matching job failed: " msg⟩
      · intro _ herr; rw [herr]; decide
      · intro _ herr; rw [herr]
      · intro hc
        exact absurd (hf.symm.trans hc) (by decide)
    · refine ⟨PyErr.runtimeError "Matching job was cancelled", ?_, ?_, ?_, ?_, ?_⟩
      · have hstep : waitStep ji = some (Except.error
            (PyErr.runtimeError "Matching job was cancelled")) := by
          simp [waitStep, hc]
        simp [waitTrace, hstep]
      · intro hf; exact absurd (hf.symm.trans hc) (by decide)
      · intro hf; exact absurd (hf.symm.trans hc) (by decide)
      · intro hf; exact absurd (hf.symm.trans hc) (by decide)
      · intro _; rfl
  | cons p ps ih =>
    have hp : waitStep p = none :=
      (waitStep_eq_none_iff p).mpr (hpre p (List.mem_cons_self p ps))
    rcases ih (fun j hj => hpre j (List.mem_cons_of_mem p hj)) with
      ⟨e, htr, hr1, hr2, hr3, hr4⟩
    refine ⟨e, ?_, hr1, hr2, hr3, hr4⟩
    simp only [List.cons_append, waitTrace, hp, List.append_eq, htr,
      List.length_cons, List.replicate_succ]

/-- Witness for C2 (amended) at a concrete FAILED response with
`errors=["boom"]`. -/
theorem C2_witness :
    ((∀ j ∈ [(⟨"RUNNING", none, none, none, none⟩ : JobInfo)],
        isTerminal j.status = false) ∧
      ((⟨"FAILED", none, none, none, some ["boom"]⟩ : JobInfo).status = "FAILED" ∨
        (⟨"FAILED", none, none, none, some ["boom"]⟩ : JobInfo).status = "CANCELLED")) ∧
    ∃ e, waitTrace 30
        ([⟨"RUNNING", none, none, none, none⟩] ++
          (⟨"FAILED", none, none, none, some ["boom"]⟩ : JobInfo) :: []) =
        some (Except.error e, 1 + 1, List.replicate 1 30) ∧
      ((⟨"FAILED", none, none, none, some ["boom"]⟩ : JobInfo).status = "FAILED" →
        ∀ msg tl, (⟨"FAILED", none, none, none, some ["boom"]⟩ : JobInfo).errors =
            some (msg :: tl) →
        e = PyErr.runtimeError ("Matching job failed: " ++ msg) ∧
        strContains ("Matching job failed: " ++ msg) msg = true) ∧
      ((⟨"FAILED", none, none, none, some ["boom"]⟩ : JobInfo).status = "FAILED" →
        (⟨"FAILED", none, none, none, some ["boom"]⟩ : JobInfo).errors = none →
        e = PyErr.runtimeError "Matching job failed: Unknown error") ∧
      ((⟨"FAILED", none, none, none, some ["boom"]⟩ : JobInfo).status = "FAILED" →
        (⟨"FAILED", none, none, none, some ["boom"]⟩ : JobInfo).errors = some [] →
        e = PyErr.indexError "list index out of range") ∧
      ((⟨"FAILED", none, none, none, some ["boom"]⟩ : JobInfo).status = "CANCELLED" →
        e = PyErr.runtimeError "Matching job was cancelled") :=
  ⟨⟨by decide, Or.inl rfl⟩,
    C2_wait_failed_raises 30 [⟨"RUNNING", none, none, none, none⟩]
      ⟨"FAILED", none, none, none, some ["boom"]⟩ [] (by decide) (Or.inl rfl)⟩

/-- C5 helper: if some response within the fuel bound is terminal, the
fuel-bounded run produces an outcome. -/
theorem waitFuel_isSome_of_terminal (responses : Nat → JobInfo) :
    ∀ (fuel i : Nat), (∃ m < fuel, isTerminal (responses (i + m)).status = true) →
    (waitFuel responses i fuel).isSome = true := by
  intro fuel
  induction fuel with
  | zero => rintro i ⟨m, hm, _⟩; exact absurd hm (Nat.not_lt_zero m)
  | succ n ih =>
    rintro i ⟨m, hm, hterm⟩
    cases hstep : waitStep (responses i) with
    | some out => simp [waitFuel, hstep]
    | none =>
      have hi : isTerminal (responses i).status = false :=
        (waitStep_eq_none_iff _).mp hstep
      simp only [waitFuel, hstep]
      apply ih
      cases m with
      | zero => rw [Nat.add_zero] at hterm; rw [hterm] at hi; exact absurd hi (by simp)
      | succ m' =>
        refine ⟨m', Nat.lt_of_succ_lt_succ hm, ?_⟩
        have : i + 1 + m' = i + (m' + 1) := by omega
        rw [this]
        exact hterm

/-- C5 helper: if the fuel-bounded run produces an outcome, some response
within the fuel bound is terminal. -/
theorem terminal_of_waitFuel_isSome (responses : Nat → JobInfo) :
    ∀ (fuel i : Nat), (waitFuel responses i fuel).isSome = true →
    ∃ m < fuel, isTerminal (responses (i + m)).status = true := by
  intro fuel
  induction fuel with
  | zero => intro i h; exact absurd h (by simp [waitFuel])
  | succ n ih =>
    intro i h
    cases hstep : waitStep (responses i) with
    | some out =>
      refine ⟨0, Nat.succ_pos n, ?_⟩
      rw [Nat.add_zero]
      cases hterm : isTerminal (responses i).status
      · rw [(waitStep_eq_none_iff _).mpr hterm] at hstep
        exact Option.noConfusion hstep
      · rfl
    | none =>
      simp only [waitFuel, hstep] at h
      rcases ih (i + 1) h with ⟨m, hm, hterm⟩
      refine ⟨m + 1, Nat.succ_lt_succ hm, ?_⟩
      have : i + (m + 1) = i + 1 + m := by omega
      rw [this]
      exact hterm

/-- C5: the polling loop has no timeout or retry bound.  Against any
infinite stream of status responses it produces an outcome within some
number of polls iff some polled status is terminal (SUCCEEDED, FAILED or
CANCELLED); if no status is ever terminal, then after any number of polls
it is still polling (`waitFuel … fuel = none` for every fuel). -/
theorem C5_wait_unbounded_polling :
    ∀ responses : Nat → JobInfo,
    ((∃ n, isTerminal (responses n).status = true) ↔
      ∃ fuel, (waitFuel responses 0 fuel).isSome = true) ∧
    ((∀ n, isTerminal (responses n).status = false) →
      ∀ fuel, waitFuel responses 0 fuel = none) := by
  intro responses
  constructor
  · constructor
    · rintro ⟨n, hn⟩
      refine ⟨n + 1, waitFuel_isSome_of_terminal responses (n + 1) 0 ⟨n, ?_, ?_⟩⟩
      · exact Nat.lt_succ_self n
      · rw [Nat.zero_add]; exact hn
    · rintro ⟨fuel, hf⟩
      rcases terminal_of_waitFuel_isSome responses fuel 0 hf with ⟨m, _, hterm⟩
      rw [Nat.zero_add] at hterm
      exact ⟨m, hterm⟩
  · intro hnever fuel
    cases hres : waitFuel responses 0 fuel with
    | none => rfl
    | some out =>
      rcases terminal_of_waitFuel_isSome responses fuel 0 (by simp [hres]) with
        ⟨m, _, hterm⟩
      rw [Nat.zero_add] at hterm
      rw [hnever m] at hterm
      exact Bool.noConfusion hterm

/-- Witness for C5: a stream that is RUNNING forever is still polling after
5 polls, and a stream that succeeds at index 2 terminates. -/
theorem C5_witness :
    ((∀ n, isTerminal ((fun (_ : Nat) => (⟨"RUNNING", none, none, none, none⟩ : JobInfo))
        n).status = false) → ∀ fuel,
      waitFuel (fun (_ : Nat) => ⟨"RUNNING", none, none, none, none⟩) 0 fuel = none) ∧
    waitFuel (fun (_ : Nat) => ⟨"RUNNING", none, none, none, none⟩) 0 5 = none :=
  ⟨(C5_wait_unbounded_polling
      (fun (_ : Nat) => ⟨"RUNNING", none, none, none, none⟩)).2,
    (C5_wait_unbounded_polling
      (fun (_ : Nat) => ⟨"RUNNING", none, none, none, none⟩)).2 (fun _ => by decide) 5⟩

/-! ### `ProcessingResult` and `process_data`
(processor/processor.py lines 16-52 and 155-242) -/

/-- The fields of the `ProcessingResult` dataclass. -/
structure ProcessingResult where
  status : String
  job_id : String
  input_records : Nat
  matched_records : Nat
  s3_bucket : String
  s3_key : String
  success : Bool
  output_path : String
  error_message : String
  deriving DecidableEq, Repr

/-- `ProcessingResult.__init__`: the `success` and `output_path` arguments
are accepted but overwritten — `success` is recomputed as
`status == "success"` and `output_path` as `f"s3://{s3_bucket}/{s3_key}"`
when both are truthy (non-empty), else `""`. -/
def ProcessingResult.make (status job_id : String) (input_records matched_records : Nat)
    (s3_bucket s3_key : String) (success : Bool) (output_path error_message : String) :
    ProcessingResult :=
  { status := status
    job_id := job_id
    input_records := input_records
    matched_records := matched_records
    s3_bucket := s3_bucket
    s3_key := s3_key
    success := decide (status = "success")
    output_path :=
      if s3_bucket ≠ "" ∧ s3_key ≠ "" then "s3://" ++ s3_bucket ++ "/" ++ s3_key else ""
    error_message := error_message }

/-- The S3 part of `Settings` consumed by `process_data`. -/
structure S3Cfg where
  bucket : String
  pfx : String

/-- The environment of `process_data`: the results of its calls into the
injected services and the `time` module. -/
structure ProcEnv where
  findLatest : Option String
  timestamp : String
  startJob : String → String → String
  waitResult : String → Except PyErr JobInfo

/-- `result["statistics"].get(name, 0)` on a statistics dict. -/
def statGet (st : Stats) (key : String) : Nat :=
  match List.find? (fun kv => kv.1 == key) st with
  | some kv => kv.2
  | none => 0

/-- `process_data(settings, …, dry_run, wait, input_uri, output_file, …)`
(processor/processor.py lines 155-242).  Service calls are read from `env`;
a raised Python exception is an `Except.error`. -/
def process_data (cfg : S3Cfg) (env : ProcEnv) (dry_run wait : Bool)
    (input_uri output_file : Option String) : Except PyErr ProcessingResult :=
  if dry_run then
    Except.ok (ProcessingResult.make "dry_run" "dry-run-job-id" 0 0 cfg.bucket
      (cfg.pfx ++ "/dry-run-output/") true
      ("s3://" ++ cfg.bucket ++ "/" ++ cfg.pfx ++ "/dry-run-output/") "")
  else
    match if truthyOpt input_uri then input_uri else env.findLatest with
    | none => Except.error (PyErr.valueError "No input data found")
    | some input_file =>
      if input_file = "" then Except.error (PyErr.valueError "No input data found")
      else
        let outPfx := cfg.pfx ++ "output/" ++
          (match output_file with
          | some o => if o = "" then env.timestamp else o
          | none => env.timestamp) ++ "/"
        let job_id := env.startJob input_file outPfx
        if !wait then
          Except.ok (ProcessingResult.make "submitted" job_id 0 0 cfg.bucket outPfx
            true ("s3://" ++ cfg.bucket ++ "/" ++ outPfx) "")
        else
          match env.waitResult job_id with
          | Except.error e => Except.error e
          | Except.ok result =>
            match result.statistics with
            | none => Except.error (PyErr.keyError "statistics")
            | some st =>
              match result.output_location with
              | none => Except.error (PyErr.keyError "output_location")
              | some loc =>
                Except.ok (ProcessingResult.make "success" job_id
                  (statGet st "inputRecordCount") (statGet st "matchedRecordCount")
                  cfg.bucket loc true ("s3://" ++ cfg.bucket ++ "/" ++ loc) "")

/-- C10: the `ProcessingResult` constructor ignores its `success` and
`output_path` arguments and recomputes them from `status`, `s3_bucket` and
`s3_key`; consequently `process_data`'s `dry_run=True` result (status
"dry_run") and `wait=False` result (status "submitted") have
`success = false` even though `success=True` is passed at both call
sites. -/
theorem C10_processing_result_recomputed :
    (∀ (status job_id : String) (ir mr : Nat) (b k : String) (succ : Bool)
      (op em : String),
      (ProcessingResult.make status job_id ir mr b k succ op em).success =
        decide (status = "success") ∧
      (ProcessingResult.make status job_id ir mr b k succ op em).output_path =
        (if b ≠ "" ∧ k ≠ "" then "s3://" ++ b ++ "/" ++ k else "")) ∧
    (∀ (cfg : S3Cfg) (env : ProcEnv) (wait : Bool) (input_uri output_file : Option String),
      ∃ r, process_data cfg env true wait input_uri output_file = Except.ok r ∧
        r.status = "dry_run" ∧ r.success = false) ∧
    (∀ (cfg : S3Cfg) (env : ProcEnv) (input_uri output_file : Option String),
      truthyOpt (if truthyOpt input_uri then input_uri else env.findLatest) = true →
      ∃ r, process_data cfg env false false input_uri output_file = Except.ok r ∧
        r.status = "submitted" ∧ r.success = false) := by
  refine ⟨fun status job_id ir mr b k succ op em => ⟨rfl, rfl⟩, ?_, ?_⟩
  · intro cfg env wait input_uri output_file
    refine ⟨_, rfl, ?_, ?_⟩ <;> rfl
  · intro cfg env input_uri output_file htruthy
    cases hin : (if truthyOpt input_uri then input_uri else env.findLatest) with
    | none => rw [hin] at htruthy; exact absurd htruthy (by simp [truthyOpt])
    | some f =>
      rw [hin] at htruthy
      have hf : ¬ f = "" := by
        simpa [truthyOpt] using htruthy
      simp only [process_data, Bool.false_eq_true, if_false, hin, if_neg hf,
        Bool.not_false, if_true]
      exact ⟨_, rfl, rfl, rfl⟩

/-- Witness for C10: a concrete environment where `process_data` with
`wait=False` returns a "submitted" result with `success = false`. -/
theorem C10_witness :
    truthyOpt (if truthyOpt (some "s3://in/data.json") then some "s3://in/data.json"
      else (ProcEnv.mk (some "x") "ts" (fun _ _ => "job-1")
        (fun _ => Except.error (PyErr.runtimeError "n/a"))).findLatest) = true ∧
    ∃ r, process_data (S3Cfg.mk "bkt" "pfx/")
        (ProcEnv.mk (some "x") "ts" (fun _ _ => "job-1")
          (fun _ => Except.error (PyErr.runtimeError "n/a")))
        false false (some "s3://in/data.json") none = Except.ok r ∧
      r.status = "submitted" ∧ r.success = false :=
  ⟨by decide,
    C10_processing_result_recomputed.2.2 (S3Cfg.mk "bkt" "pfx/")
      (ProcEnv.mk (some "x") "ts" (fun _ _ => "job-1")
        (fun _ => Except.error (PyErr.runtimeError "n/a")))
      (some "s3://in/data.json") none (by decide)⟩

/-! ### The batch-INSERT loader (`load_matched_records`,
loader/loader.py lines 90-189) -/

/-- ASCII lowercasing of one character (Python `str.lower()` on the ASCII
column names used here). -/
def lowerChar (c : Char) : Char :=
  if 'A' ≤ c ∧ c ≤ 'Z' then Char.ofNat (c.toNat + 32) else c

/-- Python `col.lower()`. -/
def strLower (s : String) : String :=
  String.mk (s.data.map lowerChar)

/-- The `column_mapping` dict of `load_matched_records`: AWS Entity
Resolution column names mapped to the target schema's names. -/
def columnMapping : List (String × String) :=
  [("matchid", "MATCH_ID"), ("matchscore", "MATCH_SCORE")]

/-- The `normalized_columns` dict computed by `load_matched_records` from
the set of incoming column names.  (The source computes this dict and then
never reads it.) -/
def normalizedColumns (allCols : List String) : List (String × String) :=
  allCols.map (fun col =>
    let lower := strLower col
    match List.find? (fun kv => kv.1 == lower) columnMapping with
    | some kv => (lower, kv.2)
    | none => (lower, col))

/-- `columns_to_use`: the configured entity attributes followed by
`MATCH_ID` and `MATCH_SCORE`. -/
def columnsToUse (entityAttrs : List String) : List String :=
  entityAttrs ++ ["MATCH_ID", "MATCH_SCORE"]

/-- The per-column value lookup of the row-building loop: an exact key
match, then the first key equal up to `lower()`; `none` is Python's `None`
(SQL NULL). -/
def lookupValue {α : Type} (record : List (String × α)) (col : String) : Option α :=
  match List.find? (fun kv => kv.1 == col) record with
  | some kv => some kv.2
  | none =>
    match List.find? (fun kv => strLower kv.1 == strLower col) record with
    | some kv => some kv.2
    | none => none

/-- One `VALUES` row built by `load_matched_records` for a record. -/
def buildRow {α : Type} (record : List (String × α)) (cols : List String) :
    List (Option α) :=
  cols.map (lookupValue record)

/-- `load_matched_records(records, …)`: the rows handed to `executemany`
(in order; batching at 1000 only groups the same rows) and the returned
`loaded_count`. -/
def load_matched_records {α : Type} (records : List (List (String × α)))
    (entityAttrs : List String) : List (List (Option α)) × Nat :=
  if records.isEmpty then ([], 0)
  else (records.map (fun r => buildRow r (columnsToUse entityAttrs)), records.length)

/-- C6 (evaluating the code at the claim's input): for the record
`{"matchId": "m1", "matchScore": 0.9}` the INSERT row for columns
`MATCH_ID, MATCH_SCORE` is `[NULL, NULL]` — the values are dropped, because
the lookup compares `"matchid"`/`"matchscore"` (lowered incoming keys)
against `"match_id"`/`"match_score"` (lowered column names) and the
`normalized_columns` map — which does hold the intended
`matchid → MATCH_ID, matchscore → MATCH_SCORE` associations — is computed
but never consulted. -/
theorem C6_normalization_map_unused :
    buildRow [("matchId", "m1"), ("matchScore", "0.9")] (columnsToUse []) =
      [none, none] ∧
    normalizedColumns ["matchId", "matchScore"] =
      [("matchid", "MATCH_ID"), ("matchscore", "MATCH_SCORE")] ∧
    load_matched_records [[("matchId", "m1"), ("matchScore", "0.9")]] [] =
      ([[none, none]], 1) := by
  exact ⟨by decide, by decide, by decide⟩

/-! ### The MERGE-based loader (`load_data`,
loader/snowflake_loader.py lines 126-223) -/

/-- A row of the target table: the primary key `ID`, the source-derived
non-key columns (abstracted as one value), and the server-side
`LAST_UPDATED` timestamp. -/
structure TableRow (α : Type) where
  id : String
  data : α
  lastUpdated : Nat
  deriving DecidableEq, Repr

/-- The first staged row with the given `ID` (the row a `MERGE … ON
target.ID = source.ID` matches against). -/
def findSrc {α : Type} (i : String) : List (String × α) → Option α
  | [] => none
  | (j, d) :: rest => if j = i then some d else findSrc i rest

/-- The dynamic `MERGE` statement of `load_data`: every target row whose
`ID` appears among the staged rows has all non-key columns updated from
the staged row and `LAST_UPDATED` set to `CURRENT_TIMESTAMP()`; staged rows
whose `ID` is absent from the target are inserted with the current
timestamp. -/
def mergeInto {α : Type} (now : Nat) (src : List (String × α))
    (tgt : List (TableRow α)) : List (TableRow α) :=
  (tgt.map (fun r =>
    match findSrc r.id src with
    | some d => ⟨r.id, d, now⟩
    | none => r)) ++
  ((src.filter (fun s => !(tgt.any (fun r => r.id == s.1)))).map
    (fun s => ⟨s.1, s.2, now⟩))

/-- The database effect of `load_data(s3_path, …)`: `COPY INTO` stages the
object's rows (`staged`, determined by the object's content) into a
temporary table, and the `MERGE` upserts them into the target table. -/
def load_data {α : Type} (now : Nat) (staged : List (String × α))
    (tgt : List (TableRow α)) : List (TableRow α) :=
  mergeInto now staged tgt

theorem findSrc_self {α : Type} :
    ∀ (src : List (String × α)), (src.map Prod.fst).Nodup →
    ∀ s ∈ src, findSrc s.1 src = some s.2 := by
  intro src
  induction src with
  | nil => intro _ s hs; exact absurd hs (List.not_mem_nil s)
  | cons hd tl ih =>
    intro hnd s hs
    rw [List.map_cons, List.nodup_cons] at hnd
    rcases List.mem_cons.mp hs with hse | hst
    · rw [hse]
      simp [findSrc]
    · simp only [findSrc]
      split
      · rename_i hj
        exact absurd (hj ▸ List.mem_map_of_mem Prod.fst hst) hnd.1
      · exact ih hnd.2 s hst

/-- Every staged `ID` is present in the merged table. -/
theorem mem_mergeInto_of_src {α : Type} (now : Nat) (src : List (String × α))
    (tgt : List (TableRow α)) :
    ∀ s ∈ src, (mergeInto now src tgt).any (fun r => r.id == s.1) = true := by
  intro s hs
  rw [List.any_eq_true]
  by_cases htgt : tgt.any (fun r => r.id == s.1) = true
  · rw [List.any_eq_true] at htgt
    rcases htgt with ⟨r, hr, hid⟩
    refine ⟨(match findSrc r.id src with
      | some d => (⟨r.id, d, now⟩ : TableRow α)
      | none => r), ?_, ?_⟩
    · exact List.mem_append_left _ (List.mem_map_of_mem _ hr)
    · cases hfind : findSrc r.id src <;> simp only [hfind] <;> exact hid
  · refine ⟨⟨s.1, s.2, now⟩, ?_, by simp⟩
    apply List.mem_append_right
    apply List.mem_map_of_mem
    rw [List.mem_filter]
    exact ⟨hs, by simp [htgt]⟩

/-- Invariant of a merged table: any row whose `ID` occurs among the staged
rows already carries the staged data. -/
theorem mergeInto_data_of_findSrc {α : Type} (now : Nat) (src : List (String × α))
    (tgt : List (TableRow α)) (hnd : (src.map Prod.fst).Nodup) :
    ∀ r ∈ mergeInto now src tgt, ∀ d, findSrc r.id src = some d → r.data = d := by
  intro r hr d hd
  rcases List.mem_append.mp hr with hL | hR
  · rcases List.mem_map.mp hL with ⟨r0, _, hmap⟩
    cases hfind : findSrc r0.id src with
    | some d0 =>
      rw [hfind] at hmap
      rw [← hmap] at hd ⊢
      simp only at hd ⊢
      rw [hfind] at hd
      exact Option.some_inj.mp hd
    | none =>
      rw [hfind] at hmap
      rw [← hmap] at hd
      rw [hfind] at hd
      exact Option.noConfusion hd
  · rcases List.mem_map.mp hR with ⟨s, hsf, hmap⟩
    have hs : s ∈ src := (List.mem_filter.mp hsf).1
    have hself := findSrc_self src hnd s hs
    rw [← hmap] at hd ⊢
    simp only at hd ⊢
    rw [hself] at hd
    exact Option.some_inj.mp hd

/-- C7: the MERGE-based `load_data` is idempotent on re-runs of the same
output object (whose staged rows have distinct primary-key `ID`s, as the
primary key demands): a second merge of the same staged rows inserts
nothing, so the row count and every row's `ID` and source-derived columns
are unchanged from the first load.  (`LAST_UPDATED`, the server-side
timestamp, is refreshed by the matched-row update; it is not a
source-derived column.) -/
theorem C7_load_data_idempotent :
    ∀ (α : Type) (staged : List (String × α)) (tgt : List (TableRow α)) (t1 t2 : Nat),
    (staged.map Prod.fst).Nodup →
    (load_data t2 staged (load_data t1 staged tgt)).length =
      (load_data t1 staged tgt).length ∧
    (load_data t2 staged (load_data t1 staged tgt)).map (fun r => (r.id, r.data)) =
      (load_data t1 staged tgt).map (fun r => (r.id, r.data)) := by
  intro α staged tgt t1 t2 hnd
  set T1 := load_data t1 staged tgt with hT1
  have hfil : (staged.filter
      (fun s => !(T1.any (fun r => r.id == s.1)))) = [] := by
    rw [List.filter_eq_nil_iff]
    intro s hs
    simp [hT1, mem_mergeInto_of_src t1 staged tgt s hs, load_data]
  constructor
  · simp only [load_data, mergeInto, hfil, List.map_nil, List.append_nil,
      List.length_map]
  · simp only [load_data, mergeInto, hfil, List.map_nil, List.append_nil]
    rw [List.map_map]
    apply List.map_congr_left
    intro r hr
    have hr' : r ∈ mergeInto t1 staged tgt := hr
    cases hfind : findSrc r.id staged with
    | none => simp [hfind]
    | some d =>
      have hdata := mergeInto_data_of_findSrc t1 staged tgt hnd r hr' d hfind
      simp [hfind, Function.comp, hdata]

/-- Witness for C7 on a concrete two-row staged object. -/
theorem C7_witness :
    ((([("1", "a"), ("2", "b")] : List (String × String)).map Prod.fst).Nodup) ∧
    (load_data 20 [("1", "a"), ("2", "b")]
        (load_data 10 [("1", "a"), ("2", "b")] [])).length =
      (load_data 10 [("1", "a"), ("2", "b")] ([] : List (TableRow String))).length ∧
    (load_data 20 [("1", "a"), ("2", "b")]
        (load_data 10 [("1", "a"), ("2", "b")] [])).map (fun r => (r.id, r.data)) =
      (load_data 10 [("1", "a"), ("2", "b")]
        ([] : List (TableRow String))).map (fun r => (r.id, r.data)) :=
  ⟨by decide,
    C7_load_data_idempotent String [("1", "a"), ("2", "b")] [] 10 20 (by decide)⟩

/-! ### The loader entry point (`load_records`,
loader/loader.py lines 192-316) -/

/-- Parsed JSON values (the records `json.loads` yields). -/
inductive Json where
  | obj : List (String × Json) → Json
  | arr : List Json → Json
  | str : String → Json
  | num : Int → Json
  | bool : Bool → Json
  | null : Json

/-- Errors of `s3_svc.read_object`: the specially-handled
`NoCredentialsError`, or any other exception (carrying `str(e)`). -/
inductive ReadErr where
  | noCredentials : ReadErr
  | other : String → ReadErr

/-- Errors of the database stage (`create_target_table` +
`load_matched_records` inside `with sf_svc`): a `ProgrammingError` or any
other exception, each carrying `str(e)`. -/
inductive DbErr where
  | programmingError : String → DbErr
  | other : String → DbErr

/-- The injected collaborators of `load_records`: the S3 service's
`find_latest_path` and `read_object`, and the Snowflake stage as one
database call returning the loaded count. -/
structure LoaderOps where
  findLatest : String → String → Option String
  readObject : String → Except ReadErr String
  dbLoad : List Json → Except DbErr Nat

/-- The fields of the `LoadingResult` dataclass.  (`execution_time`, a
wall-clock float, is not modelled.) -/
structure LoadingResult where
  status : String
  records_loaded : Nat
  target_table : String
  error_message : Option String
  deriving DecidableEq, Repr

/-- Python's `str.splitlines` restricted to `\n` separators (the loader
filters out blank lines afterwards, so the treatment of a trailing newline
is immaterial). -/
def splitNl : List Char → List (List Char)
  | [] => [[]]
  | c :: cs =>
    if c = '\n' then [] :: splitNl cs
    else
      match splitNl cs with
      | l :: ls => (c :: l) :: ls
      | [] => [[c]]

def splitLines (s : String) : List String :=
  (splitNl s.data).map String.mk

def isSpaceChar (c : Char) : Bool :=
  c = ' ' || c = '\t' || c = '\n' || c = '\r'

/-- Python's `line.strip()`. -/
def stripB (s : String) : String :=
  String.mk (((s.data.dropWhile isSpaceChar).reverse.dropWhile isSpaceChar).reverse)

/-- `[json.loads(line) for line in …]`: parses each line, propagating the
first `JSONDecodeError`. -/
def parseLines (jsonLoads : String → Except String Json) :
    List String → Except String (List Json)
  | [] => Except.ok []
  | l :: ls =>
    match jsonLoads l with
    | Except.error e => Except.error e
    | Except.ok j =>
      match parseLines jsonLoads ls with
      | Except.error e => Except.error e
      | Except.ok js => Except.ok (j :: js)

/-- The record list a parsed document denotes: an array's elements.  (A
document that starts with `[` and parses successfully is an array, so the
fallback arm is unreachable on the guarded path.) -/
def jsonAsRecords : Json → List Json
  | Json.arr xs => xs
  | j => [j]

/-- The parse stage of `load_records`: a JSON array when the content starts
with `[`, NDJSON (one record per non-blank line) otherwise. -/
def parseRecords (jsonLoads : String → Except String Json) (content : String) :
    Except String (List Json) :=
  if strIsPfx "[" content then (jsonLoads content).map jsonAsRecords
  else parseLines jsonLoads
    ((splitLines content).filter (fun l => !(stripB l == "")))

/-- `load_records(settings, s3_key, dry_run, …)` (loader/loader.py lines
192-316).  Every exception path inside the body is caught (the outer
`except Exception` boundary), so the result is always a `LoadingResult`;
the external JSON parser and the service calls are parameters. -/
def load_records (ops : LoaderOps) (jsonLoads : String → Except String Json)
    (targetTable s3Pfx : String) (s3_key : Option String) (dry_run : Bool) :
    LoadingResult :=
  if dry_run then ⟨"dry_run", 0, targetTable, none⟩
  else
    match if truthyOpt s3_key then s3_key
      else ops.findLatest (s3Pfx ++ "output/") "results" with
    | none => ⟨"error", 0, targetTable, some "No matched records found in S3"⟩
    | some key =>
      if key = "" then ⟨"error", 0, targetTable, some "No matched records found in S3"⟩
      else
        match ops.readObject key with
        | Except.error ReadErr.noCredentials =>
          ⟨"error", 0, targetTable, some "Unable to locate credentials"⟩
        | Except.error (ReadErr.other msg) => ⟨"error", 0, targetTable, some msg⟩
        | Except.ok content =>
          if content = "" then ⟨"success", 0, targetTable, some "No records to load"⟩
          else
            match parseRecords jsonLoads content with
            | Except.error e =>
              ⟨"error", 0, targetTable, some ("Failed to parse matched records: " ++ e)⟩
            | Except.ok records =>
              match ops.dbLoad records with
              | Except.ok n => ⟨"success", n, targetTable, none⟩
              | Except.error (DbErr.programmingError msg) =>
                ⟨"error", 0, targetTable, some msg⟩
              | Except.error (DbErr.other msg) => ⟨"error", 0, targetTable, some msg⟩

/-- C8: when the input object's content is non-empty and malformed JSON
(its parse stage fails with message `e`), `load_records` returns a
`LoadingResult` with status `"error"`, an `error_message` describing the
parse failure, and zero records loaded — it does not raise: the embedding's
codomain is `LoadingResult`, every exception path being caught inside. -/
theorem C8_load_records_parse_error :
    ∀ (ops : LoaderOps) (jsonLoads : String → Except String Json)
      (targetTable s3Pfx k content e : String),
    k ≠ "" →
    ops.readObject k = Except.ok content →
    content ≠ "" →
    parseRecords jsonLoads content = Except.error e →
    load_records ops jsonLoads targetTable s3Pfx (some k) false =
      ⟨"error", 0, targetTable, some ("Failed to parse matched records: " ++ e)⟩ := by
  intro ops jsonLoads targetTable s3Pfx k content e hk hread hcontent hparse
  have htruthy : truthyOpt (some k) = true := by
    simp [truthyOpt, hk]
  simp only [load_records, Bool.false_eq_true, if_false, htruthy, if_true,
    if_neg hk, hread, if_neg hcontent, hparse]

/-- Witness for C8: a one-line object whose parser rejects it. -/
theorem C8_witness :
    (("out/results.json" : String) ≠ "" ∧
      (LoaderOps.mk (fun _ _ => none) (fun _ => Except.ok "not json")
        (fun _ => Except.ok 0)).readObject "out/results.json" =
          Except.ok "not json" ∧
      ("not json" : String) ≠ "" ∧
      parseRecords (fun _ => Except.error "Expecting value") "not json" =
        Except.error "Expecting value") ∧
    load_records
        (LoaderOps.mk (fun _ _ => none) (fun _ => Except.ok "not json")
          (fun _ => Except.ok 0))
        (fun _ => Except.error "Expecting value") "TGT" "pfx/"
        (some "out/results.json") false =
      ⟨"error", 0, "TGT", some ("Failed to parse matched records: " ++ "Expecting value")⟩ :=
  ⟨⟨by decide, rfl, by decide, rfl⟩,
    C8_load_records_parse_error
      (LoaderOps.mk (fun _ _ => none) (fun _ => Except.ok "not json")
        (fun _ => Except.ok 0))
      (fun _ => Except.error "Expecting value") "TGT" "pfx/" "out/results.json"
      "not json" "Expecting value" (by decide) rfl (by decide) rfl⟩

end AwsER
